import Mathlib

/-!
Verification of the Memory Discovery & Flashback Reel Engine
(`apps/memories/services.py`, `apps/memories/tasks.py`,
`apps/memories/models.py`) against its specification.

The Python code is shallowly embedded: dates are a proleptic Gregorian
calendar (`DateT`); Python `float` scores are modelled as exact rationals
(every quantity involved is a small decimal, so no rounding occurs);
Django querysets over `Image` rows become filters over a `List Photo`;
`ValueError` from `date.replace` becomes `Option`; the Celery task and the
reel service's cancel/retry become an explicit event-step function over a
reel state record.
-/

/-! ## Calendar model (Python `datetime.date`) -/

/-- A calendar date, as Python's `datetime.date` triple. -/
structure DateT where
  year : Int
  month : Nat
  day : Nat
deriving DecidableEq, Repr

/-- Gregorian leap-year rule (Python `calendar.isleap`). -/
def isLeap (y : Int) : Bool :=
  y % 4 == 0 && (y % 100 != 0 || y % 400 == 0)

/-- Number of days in a month of a given year. -/
def daysInMonth (y : Int) (m : Nat) : Nat :=
  if m = 2 then (if isLeap y then 29 else 28)
  else if m = 4 ∨ m = 6 ∨ m = 9 ∨ m = 11 then 30
  else 31

/-- Validity of a `DateT`, mirroring the check Python's `date` constructor
performs. -/
def DateT.valid (d : DateT) : Bool :=
  1 ≤ d.month && d.month ≤ 12 && 1 ≤ d.day && d.day ≤ daysInMonth d.year d.month

/-- Days since 0000-03-01 of the civil date (Hinnant's `days_from_civil`);
used to model `date` ordering and `timedelta` arithmetic. -/
def DateT.toOrd (dt : DateT) : Int :=
  let y : Int := dt.year - (if dt.month ≤ 2 then 1 else 0)
  let era : Int := (if 0 ≤ y then y else y - 399) / 400
  let yoe : Int := y - era * 400
  let mp : Int := ((dt.month : Int) + 9) % 12
  let doy : Int := (153 * mp + 2) / 5 + (dt.day : Int) - 1
  let doe : Int := yoe * 365 + yoe / 4 - yoe / 100 + doy
  era * 146097 + doe

/-- Civil date from a day number (Hinnant's `civil_from_days`). -/
def DateT.ofOrd (z : Int) : DateT :=
  let era : Int := (if 0 ≤ z then z else z - 146096) / 146097
  let doe : Int := z - era * 146097
  let yoe : Int := (doe - doe / 1460 + doe / 36524 - doe / 146096) / 365
  let y : Int := yoe + era * 400
  let doy : Int := doe - (365 * yoe + yoe / 4 - yoe / 100)
  let mp : Int := (5 * doy + 2) / 153
  let d : Int := doy - (153 * mp + 2) / 5 + 1
  let m : Int := if mp < 10 then mp + 3 else mp - 9
  ⟨y + (if m ≤ 2 then 1 else 0), m.toNat, d.toNat⟩

/-- `d + timedelta(days=n)`. -/
def DateT.addDays (d : DateT) (n : Int) : DateT :=
  DateT.ofOrd (d.toOrd + n)

/-- `d.replace(year=y)`: Python raises `ValueError` when the resulting
triple is not a real date (February 29 of a non-leap year); modelled as
`none`. -/
def DateT.replaceYear (d : DateT) (y : Int) : Option DateT :=
  let nd : DateT := ⟨y, d.month, d.day⟩
  if nd.valid then some nd else none

/-- Date comparison `a ≤ b` via day numbers. -/
def DateT.le (a b : DateT) : Bool :=
  a.toOrd ≤ b.toOrd

/-! ## Photo model (`apps/images/models.py`, `Image`) -/

/-- The fields of an `Image` row that the memories subsystem reads.
`width`/`height`/`taken_at` are nullable columns; `share_count` is the
`PublicShare` count the scorer queries and `album_count` is
`photo.albums.count()` — both read-only derived counts. -/
structure Photo where
  id : Nat
  userId : Nat
  takenAt : Option DateT
  createdAt : DateT
  width : Option Nat
  height : Option Nat
  shareCount : Nat
  albumCount : Nat
deriving DecidableEq, Repr

instance : Inhabited Photo :=
  ⟨⟨0, 0, none, ⟨2000, 1, 1⟩, none, none, 0, 0⟩⟩

/-- Python truthiness of a nullable integer column: `None` and `0` are
falsy. -/
def truthyInt : Option Nat → Bool
  | none => false
  | some n => n != 0

/-! ## Significance scorer (`MemoryEngine.score_photo_significance`) -/

/-- `MemoryEngine.score_photo_significance`, with `today` standing for
`timezone.now().date()`.  The running `score` accumulates exactly the
additions the Python body performs, in order. -/
def score_photo_significance (today : DateT) (photo : Photo) : ℚ :=
  let score : ℚ := 0
  let score := score + 1
  let score := score + (photo.shareCount : ℚ) * 2
  let score := score + 1/2
  let score := score + (photo.albumCount : ℚ) * (3/2)
  let score :=
    if truthyInt photo.width && truthyInt photo.height then
      let megapixels : ℚ :=
        ((photo.width.getD 0 : ℚ) * (photo.height.getD 0 : ℚ)) / 1000000
      score + min (megapixels * (1/10)) 2
    else score
  let score :=
    match photo.takenAt with
    | none => score
    | some t =>
      let yearsAgo : ℚ := ((today.toOrd - t.toOrd : Int) : ℚ) / (1461/4)
      score + max 0 (2 - yearsAgo * (1/10))
  score

/-- The score formula as the specification words it: base 1.0, plus
shareCount·2.0, plus the 0.5 engagement placeholder, plus albumCount·1.5,
plus `min(megapixels·0.1, 2.0)` when width and height are known, plus
`max(0, 2.0 − yearsAgo·0.1)` when the capture time is present. -/
def specScore (today : DateT) (photo : Photo) : ℚ :=
  1 + (photo.shareCount : ℚ) * 2 + 1/2 + (photo.albumCount : ℚ) * (3/2)
    + (match photo.width, photo.height with
       | some w, some h => min (((w : ℚ) * (h : ℚ) / 1000000) * (1/10)) 2
       | _, _ => 0)
    + (match photo.takenAt with
       | some t =>
         max 0 (2 - (((today.toOrd - t.toOrd : Int) : ℚ) / (1461/4)) * (1/10))
       | none => 0)

/-! ## Sorting helper

Python's `list.sort`/`order_by` is a stable sort.  `sortBy le` is a stable
insertion sort: an element is inserted before the first already-placed
element `y` with `le x y`; since already-placed elements come later in the
original list, ties keep their original relative order, as in Python. -/

/-- Insert `x` before the first element `y` with `le x y = true`. -/
def insertBy {α : Type} (le : α → α → Bool) (x : α) : List α → List α
  | [] => [x]
  | y :: ys => if le x y then x :: y :: ys else y :: insertBy le x ys

/-- Stable sort with respect to the boolean preorder `le`. -/
def sortBy {α : Type} (le : α → α → Bool) : List α → List α
  | [] => []
  | x :: xs => insertBy le x (sortBy le xs)

/-- Sort key for `order_by('-taken_at')` / `order_by('taken_at')`; every
photo this is applied to has been filtered to a non-null `taken_at`. -/
def takenOrd (p : Photo) : Int :=
  match p.takenAt with
  | some t => t.toOrd
  | none => 0

/-- `order_by('-taken_at')`: newest first. -/
def sortNewestFirst (l : List Photo) : List Photo :=
  sortBy (fun a b => decide (takenOrd b ≤ takenOrd a)) l

/-- `taken_at__date__gte=a, taken_at__date__lte=b`; rows with a NULL
`taken_at` never match the SQL comparison. -/
def dateInRange (p : Photo) (a b : DateT) : Bool :=
  match p.takenAt with
  | some t => a.le t && t.le b
  | none => false

/-! ## Memory discovery (`MemoryEngine`) -/

/-- `MemoryEngine._find_photos_by_date`: photos of the user taken on the
same month/day in a strictly earlier year, newest first, capped at 50. -/
def find_photos_by_date (photos : List Photo) (userId : Nat) (target : DateT) :
    List Photo :=
  (sortNewestFirst (photos.filter (fun p =>
    p.userId == userId &&
    (match p.takenAt with
     | some t =>
       t.month == target.month && t.day == target.day &&
         decide (t.year < target.year)
     | none => false)))).take 50

/-- The window the expanded pass scans for `year_offset = k`:
`(target − 7 days).replace(year = target.year − k)` to
`(target + 7 days).replace(year = target.year − k)`; `none` models the
`ValueError` that `replace` raises when the shifted day does not exist in
the replaced year (February 29). -/
def windowOf (target : DateT) (k : Nat) : Option (DateT × DateT) :=
  match (target.addDays (-7)).replaceYear (target.year - k),
        (target.addDays 7).replaceYear (target.year - k) with
  | some ys, some ye => some (ys, ye)
  | _, _ => none

/-- The loop body of `_find_photos_with_date_expansion`: per year take the
10 newest photos of the window, extend the accumulator, and break once 30
photos are accumulated. -/
def expansionGo (photos : List Photo) (userId : Nat) (target : DateT) :
    List Nat → List Photo → Option (List Photo)
  | [], acc => some acc
  | k :: ks, acc =>
    match windowOf target k with
    | none => none
    | some (ys, ye) =>
      let yearPhotos :=
        (sortNewestFirst (photos.filter (fun p =>
          p.userId == userId && dateInRange p ys ye))).take 10
      let acc2 := acc ++ yearPhotos
      if 30 ≤ acc2.length then some acc2
      else expansionGo photos userId target ks acc2

/-- `MemoryEngine._find_photos_with_date_expansion`
(`for year_offset in range(1, 10)`). -/
def find_photos_with_date_expansion (photos : List Photo) (userId : Nat)
    (target : DateT) : Option (List Photo) :=
  expansionGo photos userId target (List.range' 1 9) []

/-- `MemoryEngine._score_photos_significance`: keep photos scoring at least
the threshold 1.0, sort by score descending, truncate to 20. -/
def score_photos_significance (today : DateT) (photos : List Photo) :
    List (Photo × ℚ) :=
  let scored := photos.filterMap (fun p =>
    let s := score_photo_significance today p
    if 1 ≤ s then some (p, s) else none)
  (sortBy (fun a b => decide (b.2 ≤ a.2)) scored).take 20

/-- A `Memory` row together with its `MemoryPhoto` link rows
(`(photo id, significance, order)`), which are created atomically with it
and immutable afterwards. -/
structure MemoryRow where
  id : Nat
  userId : Nat
  targetDate : DateT
  significance : ℚ
  photoLinks : List (Nat × ℚ × Nat)
deriving DecidableEq, Repr

/-- The store and cache state `MemoryEngine` reads and writes.  `today`
stands for the clock (`timezone.now().date()`), `nextId` for the primary
key sequence, and `cache` for the `daily_memories:{user}:{date}` keyspace
(newest entry first, as `cache.set` overwrites). -/
structure SysState where
  today : DateT
  photos : List Photo
  memories : List MemoryRow
  nextId : Nat
  cache : List ((Nat × DateT) × List Nat)
deriving DecidableEq, Repr

/-- `cache.get` on a `daily_memories` key. -/
def cacheGet (c : List ((Nat × DateT) × List Nat)) (k : Nat × DateT) :
    Option (List Nat) :=
  (c.find? (fun e => e.1 == k)).map (·.2)

/-- `cache.set` on a `daily_memories` key. -/
def cacheSet (st : SysState) (k : Nat × DateT) (v : List Nat) : SysState :=
  { st with cache := (k, v) :: st.cache }

/-- `MemoryEngine._create_memory`: average the kept scores, insert a
`Memory` row and one `MemoryPhoto` row per scored photo, preserving the
sorted order as the `order` column. -/
def create_memory (st : SysState) (userId : Nat) (target : DateT)
    (scored : List (Photo × ℚ)) : MemoryRow × SysState :=
  let total : ℚ := (scored.map (·.2)).sum
  let avg : ℚ := if scored.length = 0 then 0 else total / (scored.length : ℚ)
  let links := scored.enum.map (fun e => (e.2.1.id, e.2.2, e.1))
  let mem : MemoryRow := ⟨st.nextId, userId, target, avg, links⟩
  (mem, { st with memories := st.memories ++ [mem], nextId := st.nextId + 1 })

/-- `MemoryEngine.discover_daily_memories`, returning the list of memory
ids the call hands back together with the updated state; `none` models an
uncaught `ValueError` escaping from the expanded pass. -/
def discover_daily_memories (st : SysState) (userId : Nat) (target : DateT) :
    Option (List Nat × SysState) :=
  match cacheGet st.cache (userId, target) with
  | some ids =>
    if ids.isEmpty then some ([], st)
    else some ((st.memories.filter (fun m => ids.contains m.id)).map (·.id), st)
  | none =>
    match st.memories.find? (fun m =>
        m.userId == userId && m.targetDate == target) with
    | some m => some ([m.id], cacheSet st (userId, target) [m.id])
    | none =>
      let photos := find_photos_by_date st.photos userId target
      match (if photos.isEmpty then
               find_photos_with_date_expansion st.photos userId target
             else some photos) with
      | none => none
      | some photos2 =>
        if photos2.isEmpty then some ([], cacheSet st (userId, target) [])
        else
          let scored := score_photos_significance st.today photos2
          if scored.isEmpty then some ([], cacheSet st (userId, target) [])
          else
            let ms := create_memory st userId target scored
            some ([ms.1.id], cacheSet ms.2 (userId, target) [ms.1.id])

/-! ## Reel photo selection (`FlashbackReelService`) -/

/-- Grouping key: `photo.taken_at.date() if photo.taken_at else
photo.created_at.date()`. -/
def photoDateKey (p : Photo) : DateT :=
  match p.takenAt with
  | some t => t
  | none => p.createdAt

/-- Append a scored photo to its date group, keeping `defaultdict`
insertion order of both keys and group members. -/
def insertGroup : List (DateT × List (Photo × ℚ)) → DateT → (Photo × ℚ) →
    List (DateT × List (Photo × ℚ))
  | [], d, x => [(d, [x])]
  | (k, g) :: rest, d, x =>
    if k == d then (k, g ++ [x]) :: rest
    else (k, g) :: insertGroup rest d x

/-- `photos_by_date`: group the scored photos by date key. -/
def groupByDate (scored : List (Photo × ℚ)) : List (DateT × List (Photo × ℚ)) :=
  scored.foldl (fun acc pq => insertGroup acc (photoDateKey pq.1) pq) []

/-- Lookup of `photos_by_date[date_key]`. -/
def lookupGroup (gs : List (DateT × List (Photo × ℚ))) (d : DateT) :
    Option (List (Photo × ℚ)) :=
  (gs.find? (fun e => e.1 == d)).map (·.2)

/-- `sorted(date_photos, key=score, reverse=True)[0][0]`: the top-scored
photo of a group (the group is never empty when this is evaluated). -/
def bestOfGroup (g : Option (List (Photo × ℚ))) : Photo :=
  match g with
  | some l => ((sortBy (fun a b => decide (b.2 ≤ a.2)) l).headD (default, 0)).1
  | none => default

/-- `FlashbackReelService._apply_temporal_distribution`. -/
def apply_temporal_distribution (scored : List (Photo × ℚ)) (count : Nat) :
    List Photo :=
  if scored.length ≤ count then scored.map (·.1)
  else
    let groups := groupByDate scored
    let dates := sortBy (fun a b => decide (a.toOrd ≤ b.toOrd)) (groups.map (·.1))
    if dates.length ≤ count then
      let selected := dates.map (fun d => bestOfGroup (lookupGroup groups d))
      let remainingCount := count - selected.length
      if 0 < remainingCount then
        let allRemaining :=
          (dates.map (fun d => ((lookupGroup groups d).getD []).drop 1)).flatten
        let allRemaining := sortBy (fun a b => decide (b.2 ≤ a.2)) allRemaining
        selected ++ (allRemaining.take remainingCount).map (·.1)
      else selected
    else
      let dateStep := dates.length / count
      let selectedDates :=
        (List.range count).map (fun i => dates.getD (i * dateStep) ⟨0, 1, 1⟩)
      selectedDates.map (fun d => bestOfGroup (lookupGroup groups d))

/-- `FlashbackReelService._advanced_photo_selection`: score all photos,
sort by score descending, temporally distribute, then sort the selection
chronologically (`taken_at or created_at`). -/
def advanced_photo_selection (today : DateT) (photos : List Photo)
    (count : Nat) : List Photo :=
  let scored := photos.map (fun p => (p, score_photo_significance today p))
  let scored := sortBy (fun a b => decide (b.2 ≤ a.2)) scored
  let selected := apply_temporal_distribution scored count
  sortBy (fun a b =>
    decide ((photoDateKey a).toOrd ≤ (photoDateKey b).toOrd)) selected

/-- `FlashbackReelService.select_representative_photos`: clamp the
requested count into `[10, 20]` (default 20), fetch the user's photos of
the period in chronological order, return them all when few enough, and
otherwise run the advanced selection. -/
def select_representative_photos (today : DateT) (allPhotos : List Photo)
    (userId : Nat) (startDate endDate : DateT) (countOpt : Option Nat) :
    List Photo :=
  let count := countOpt.getD 20
  let count := max 10 (min count 20)
  let photos := sortBy (fun a b => decide (takenOrd a ≤ takenOrd b))
    (allPhotos.filter (fun p =>
      p.userId == userId && dateInRange p startDate endDate))
  if photos.length ≤ count then photos
  else advanced_photo_selection today photos count

/-- A `FlashbackReel` row as `create_reel_request` persists it. -/
structure ReelRow where
  userId : Nat
  title : String
  duration : Int
  theme : String
  status : String
  startDate : DateT
  endDate : DateT
  photoIds : List Nat
  photoCount : Nat
deriving DecidableEq, Repr

/-- The valid themes (`supported_themes`). -/
def supportedThemes : List String := ["classic", "modern", "vintage", "cinematic"]

/-- `FlashbackReelService.create_reel_request` (synchronous part): theme
fallback, duration defaulting and clamping, photo selection, the
insufficient-photos `ValueError` (modelled as `Except.error`), and the
persisted `pending` reel. -/
def create_reel_request (today : DateT) (allPhotos : List Photo) (userId : Nat)
    (title : String) (startDate endDate : DateT) (theme : String)
    (durationOpt : Option Int) : Except String ReelRow :=
  let theme := if supportedThemes.contains theme then theme else "classic"
  let duration := durationOpt.getD 30
  let duration := max 10 (min duration 300)
  let photos := select_representative_photos today allPhotos userId
    startDate endDate none
  if photos.length < 10 then
    Except.error "Not enough photos for reel. Need at least 10"
  else
    Except.ok ⟨userId, title, duration, theme, "pending", startDate, endDate,
      photos.map (·.id), photos.length⟩

/-! ## Reel lifecycle (`generate_flashback_reel_video`, cancel, retry)

The generation task (`tasks.py`), `cancel_reel_generation` and
`retry_reel_generation` are modelled as an event-step function over the
reel's row.  `queued` is the multiset (FIFO list) of task invocations
waiting in the queue, each carrying its own Celery
`self.request.retries` counter (`max_retries=3`): `create_reel_request`
enqueues one invocation, cancel does not revoke a queued invocation (the
code's TODO), and retry enqueues a fresh invocation with counter 0 even
when an old one is still queued — so several invocations can be waiting
at once.  A run of a queued invocation either succeeds (`runOk`) or
raises (`runErr msg`), in which case the task marks the reel failed and
either re-raises `self.retry` (consumed by the worker, which requeues the
same invocation with its counter bumped) or returns its error dictionary.
At-least-once delivery can only replay runs of these same kinds, so it
adds no further status writes beyond the ones the events produce. -/

/-- `FlashbackReel.status` values. -/
inductive RStatus
  | pending
  | processing
  | completed
  | failed
deriving DecidableEq, Repr

/-- A status transition written to the database. -/
abbrev RTrans := RStatus × RStatus

/-- The reel row fields the lifecycle touches, plus the queue bookkeeping
described above: one `queued` entry per waiting task invocation, holding
that invocation's retry counter. -/
structure ReelState where
  status : RStatus
  queued : List Nat
  errorMessage : Option String
  completedAt : Bool
deriving DecidableEq, Repr

/-- The state of a reel freshly persisted by `create_reel_request` with
`async_processing=True`: `pending`, one queued invocation with retry
counter 0, no error, no completion timestamp. -/
def reelInit : ReelState := ⟨RStatus.pending, [0], none, false⟩

/-- Operations that touch the reel's status. -/
inductive REvent
  | runOk
  | runErr (msg : String)
  | cancel
  | retry
deriving DecidableEq, Repr

/-- Record a status write as a transition when it changes the status. -/
def emitT (a b : RStatus) : List RTrans :=
  if a = b then [] else [(a, b)]

/-- What a task run hands back to its caller: a returned value (the
result dictionary), a `self.retry` exception consumed by the Celery
worker, or nothing because no task was queued.  The task body catches
every other exception, so no constructor re-raises to the enqueuer. -/
inductive TaskOutcome
  | value
  | requeued
  | noop
deriving DecidableEq, Repr

/-- One event against the reel row: the new row, the status transitions
written (in order), and the task outcome. -/
def applyEvent (s : ReelState) : REvent → ReelState × List RTrans × TaskOutcome
  | REvent.runOk =>
    match s.queued with
    | [] => (s, [], TaskOutcome.noop)
    | _ :: rest =>
      ({ s with status := RStatus.completed, queued := rest,
                completedAt := true },
       emitT s.status RStatus.processing ++
         emitT RStatus.processing RStatus.completed,
       TaskOutcome.value)
  | REvent.runErr msg =>
    match s.queued with
    | [] => (s, [], TaskOutcome.noop)
    | r :: rest =>
      let em := some ("Video generation failed: " ++ msg)
      if r < 3 then
        ({ s with status := RStatus.failed, errorMessage := em,
                  queued := rest ++ [r + 1] },
         emitT s.status RStatus.processing ++
           emitT RStatus.processing RStatus.failed,
         TaskOutcome.requeued)
      else
        ({ s with status := RStatus.failed, errorMessage := em,
                  queued := rest },
         emitT s.status RStatus.processing ++
           emitT RStatus.processing RStatus.failed,
         TaskOutcome.value)
  | REvent.cancel =>
    if s.status = RStatus.pending ∨ s.status = RStatus.processing then
      ({ s with status := RStatus.failed,
                errorMessage := some "Cancelled by user" },
       emitT s.status RStatus.failed, TaskOutcome.value)
    else (s, [], TaskOutcome.value)
  | REvent.retry =>
    if s.status = RStatus.failed then
      ({ s with status := RStatus.pending, errorMessage := some "",
                queued := s.queued ++ [0] },
       emitT s.status RStatus.pending, TaskOutcome.value)
    else (s, [], TaskOutcome.value)

/-- Run a sequence of events, collecting every status transition. -/
def runEvents (s : ReelState) : List REvent → ReelState × List RTrans
  | [] => (s, [])
  | e :: es =>
    let r1 := applyEvent s e
    let r2 := runEvents r1.1 es
    (r2.1, r1.2.1 ++ r2.2)

/-- The transition set the specification claims
(`pending→processing, processing→completed, processing→failed,
pending→failed, processing→failed` on cancel, `failed→pending` on retry). -/
def claimedTransitions : List RTrans :=
  [(RStatus.pending, RStatus.processing),
   (RStatus.processing, RStatus.completed),
   (RStatus.processing, RStatus.failed),
   (RStatus.pending, RStatus.failed),
   (RStatus.failed, RStatus.pending)]

/-! ## Notification throttling (`MemoryNotificationService`) -/

/-- The `MemoryPreferences` fields `should_send_notification` reads. -/
structure PrefsRow where
  enableNotifications : Bool
  featureEnabled : Bool
deriving DecidableEq, Repr

/-- `MemoryNotificationService.should_send_notification`.  `prefs` is the
user's `MemoryPreferences` row (`none` when absent, which defaults to
enabled); `alreadyNotified` is whether a `MemoryNotification` row exists
for this (user, memory) pair; `todayCount` is the number of notifications
sent to the user since today's midnight; `significance` is
`memory.significance_score`. -/
def should_send_notification (prefs : Option PrefsRow) (alreadyNotified : Bool)
    (todayCount : Nat) (significance : ℚ) : Bool :=
  if (match prefs with
      | some p => !p.enableNotifications || !p.featureEnabled
      | none => false) then false
  else if alreadyNotified then false
  else if 3 ≤ todayCount then false
  else if significance < 2 then false
  else true

/-! ## Helper lemmas about the scorer -/

/-- The accumulated score equals the closed formula of the specification. -/
theorem score_eq_specScore (today : DateT) (p : Photo) :
    score_photo_significance today p = specScore today p := by
  obtain ⟨i, u, ta, ca, w, h, sc, ac⟩ := p
  simp only [score_photo_significance, specScore, truthyInt]
  cases w with
  | none => cases h <;> cases ta <;> simp
  | some w0 =>
    cases h with
    | none => cases ta <;> simp
    | some h0 =>
      rcases Nat.eq_zero_or_pos w0 with hw | hw
      · subst hw
        cases ta <;> simp
      · rcases Nat.eq_zero_or_pos h0 with hh | hh
        · subst hh
          cases ta <;> simp
        · have hw' : (w0 != 0) = true := by
            simp [bne_iff_ne]; omega
          have hh' : (h0 != 0) = true := by
            simp [bne_iff_ne]; omega
          cases ta <;> simp [hw', hh']

/-- The capped quality bonus is non-negative. -/
theorem quality_term_nonneg (w0 h0 : Nat) :
    (0:ℚ) ≤ min (((w0 : ℚ) * (h0 : ℚ) / 1000000) * (1/10)) 2 :=
  le_min (by positivity) (by norm_num)

/-- The floored recency bonus is non-negative. -/
theorem recency_term_nonneg (x : ℚ) : (0:ℚ) ≤ max 0 x :=
  le_max_left 0 x

/-- The specification formula is at least 1.5: the base 1.0 plus the fixed
0.5 placeholder, plus only non-negative terms. -/
theorem specScore_ge (today : DateT) (p : Photo) :
    (3/2 : ℚ) ≤ specScore today p := by
  obtain ⟨i, u, ta, ca, w, h, sc, ac⟩ := p
  have hsc : (0:ℚ) ≤ (sc : ℚ) := Nat.cast_nonneg sc
  have hac : (0:ℚ) ≤ (ac : ℚ) := Nat.cast_nonneg ac
  rcases w with _ | w0 <;> rcases h with _ | h0 <;> rcases ta with _ | t <;>
    simp only [specScore]
  · linarith
  · linarith [recency_term_nonneg
      (2 - (((today.toOrd - t.toOrd : Int) : ℚ) / (1461/4)) * (1/10))]
  · linarith
  · linarith [recency_term_nonneg
      (2 - (((today.toOrd - t.toOrd : Int) : ℚ) / (1461/4)) * (1/10))]
  · linarith
  · linarith [recency_term_nonneg
      (2 - (((today.toOrd - t.toOrd : Int) : ℚ) / (1461/4)) * (1/10))]
  · linarith [quality_term_nonneg w0 h0]
  · linarith [quality_term_nonneg w0 h0, recency_term_nonneg
      (2 - (((today.toOrd - t.toOrd : Int) : ℚ) / (1461/4)) * (1/10))]

/-! ## C2: the significance score formula and its non-negativity -/

/-- C2: for every photo, the significance score equals
1.0 (base) + shareCount·2.0 + 0.5 (placeholder) + albumCount·1.5
+ min(megapixels·0.1, 2.0) when width and height are known
+ max(0, 2.0 − yearsAgo·0.1) when capturedAt is present,
and the result is never negative. -/
theorem c2_score_formula_and_nonneg (today : DateT) (p : Photo) :
    score_photo_significance today p = specScore today p ∧
    0 ≤ score_photo_significance today p := by
  refine ⟨score_eq_specScore today p, ?_⟩
  have h := specScore_ge today p
  rw [score_eq_specScore today p]
  linarith

/-! ## C8: the notification throttle -/

/-- The tail of the throttle decision: record / daily-limit /
significance checks. -/
theorem notifyTail_iff (b : Bool) (n : Nat) (sig : ℚ) :
    (if b = true then false
     else if 3 ≤ n then false
     else if sig < 2 then false else true) = true ↔
    (b = false ∧ n < 3 ∧ 2 ≤ sig) := by
  by_cases h1 : b = true
  · simp [h1]
  · by_cases h2 : 3 ≤ n
    · simp only [h1, h2, if_false, if_true]
      simp only [Bool.not_eq_true] at h1
      simp [h1]
      omega
    · by_cases h3 : sig < 2
      · have h3' := not_le.mpr h3
        simp only [h1, h2, h3, if_false, if_true]
        simp [h3']
      · have h3' := not_lt.mp h3
        simp only [h1, h2, h3, if_false]
        simp only [Bool.not_eq_true] at h1
        simp [h1, h3']
        omega

/-- C8: `should_send_notification` returns `true` exactly when the
preferences (when present) enable both notifications and the feature, no
notification record exists for the (user, memory) pair, fewer than 3
notifications went out since midnight, and the memory's significance is at
least 2.0 — i.e. it returns `false` in each of the four claimed cases and
`true` otherwise. -/
theorem c8_should_send_notification_spec (prefs : Option PrefsRow)
    (alreadyNotified : Bool) (todayCount : Nat) (significance : ℚ) :
    should_send_notification prefs alreadyNotified todayCount significance
      = true ↔
    ((∀ p, prefs = some p →
        p.enableNotifications = true ∧ p.featureEnabled = true) ∧
      alreadyNotified = false ∧ todayCount < 3 ∧ 2 ≤ significance) := by
  have h := notifyTail_iff alreadyNotified todayCount significance
  cases prefs with
  | none =>
    simp only [should_send_notification]
    rw [if_neg (by simp)]
    rw [h]
    simp
  | some p =>
    by_cases he : p.enableNotifications = true
    · by_cases hf : p.featureEnabled = true
      · simp only [should_send_notification]
        rw [if_neg (by simp [he, hf])]
        rw [h]
        constructor
        · rintro ⟨h1, h2, h3⟩
          exact ⟨fun q hq => by cases hq; exact ⟨he, hf⟩, h1, h2, h3⟩
        · rintro ⟨-, h1, h2, h3⟩
          exact ⟨h1, h2, h3⟩
      · simp only [should_send_notification]
        rw [if_pos (by simp [Bool.not_eq_true] at hf ⊢; simp [hf])]
        constructor
        · intro hfalse
          cases hfalse
        · rintro ⟨hall, -⟩
          exact absurd (hall p rfl).2 hf
    · simp only [should_send_notification]
      rw [if_pos (by simp [Bool.not_eq_true] at he ⊢; simp [he])]
      constructor
      · intro hfalse
        cases hfalse
      · rintro ⟨hall, -⟩
        exact absurd (hall p rfl).1 he

/-! ## C3: the reel status state machine -/

/-- The claimed transition set plus the two edges the code's
unconditional `status='processing'` write produces on a task start:
`failed→processing` (the worker re-executing the task after a failure —
automatic retry, or a still-queued invocation starting on a reel that
cancel already marked failed) and `completed→processing` (a second queued
invocation starting on a reel already completed: cancel does not revoke
the queued invocation and retry enqueues a fresh one, so after
cancel-then-retry two invocations are waiting). -/
def amendedTransitions : List RTrans :=
  claimedTransitions ++
    [(RStatus.failed, RStatus.processing),
     (RStatus.completed, RStatus.processing)]

/-- Invariant between events: the row is never left in `processing`
(every task run ends in `completed` or `failed`). -/
def reelOK (s : ReelState) : Prop :=
  s.status ≠ RStatus.processing

/-- Each single event only writes transitions of the amended set and
preserves the invariant. -/
theorem applyEvent_sound (s : ReelState) (e : REvent) (hs : reelOK s) :
    (∀ t ∈ (applyEvent s e).2.1, t ∈ amendedTransitions) ∧
    reelOK (applyEvent s e).1 := by
  obtain ⟨st, q, em, ca⟩ := s
  cases e <;> cases q <;> cases st <;>
    simp only [applyEvent] <;>
    (try split_ifs) <;>
    simp_all [emitT, amendedTransitions, claimedTransitions, reelOK]

/-- Every transition of an event run from an invariant state is amended. -/
theorem runEvents_sound (evs : List REvent) (s : ReelState) (hs : reelOK s) :
    (∀ t ∈ (runEvents s evs).2, t ∈ amendedTransitions) ∧
    reelOK (runEvents s evs).1 := by
  induction evs generalizing s with
  | nil => simpa [runEvents] using hs
  | cons e es ih =>
    have ha := applyEvent_sound s e hs
    have hb := ih (applyEvent s e).1 ha.2
    simp only [runEvents]
    refine ⟨?_, hb.2⟩
    intro t ht
    rcases List.mem_append.mp ht with h | h
    · exact ha.1 t h
    · exact hb.1 t h

/-- C3 (counterexample): after a failing run the worker's automatic retry
re-enters the task, which writes `failed→processing`; and after
create→cancel→retry the un-revoked first invocation completes the reel,
whereupon the second invocation (enqueued by retry) writes
`completed→processing` — both transitions outside the claimed set. -/
theorem c3_counterexample :
    ((RStatus.failed, RStatus.processing) ∈
      (runEvents reelInit [REvent.runErr "render crashed", REvent.runOk]).2 ∧
      (RStatus.failed, RStatus.processing) ∉ claimedTransitions) ∧
    ((RStatus.completed, RStatus.processing) ∈
      (runEvents reelInit
        [REvent.cancel, REvent.retry, REvent.runOk, REvent.runOk]).2 ∧
      (RStatus.completed, RStatus.processing) ∉ claimedTransitions) := by
  decide

/-- C3 (amended): every reachable status transition under generation
runs, cancel and retry — with the queue allowed to hold several task
invocations at once — lies in the claimed set extended with
`failed→processing` and `completed→processing` (the task re-entering
after the row was already marked failed, respectively completed). -/
theorem c3_reel_transitions_amended (evs : List REvent) (t : RTrans)
    (ht : t ∈ (runEvents reelInit evs).2) : t ∈ amendedTransitions :=
  (runEvents_sound evs reelInit (by simp [reelInit, reelOK])).1 t ht

/-- Closed instance of `c3_reel_transitions_amended`. -/
theorem c3_reel_transitions_amended_witness :
    ((RStatus.pending, RStatus.processing) ∈
        (runEvents reelInit [REvent.runOk]).2) ∧
    (RStatus.pending, RStatus.processing) ∈ amendedTransitions :=
  ⟨by decide, c3_reel_transitions_amended [REvent.runOk] _ (by decide)⟩

/-! ## C5: exhausted retries -/

/-- C5: when every attempt of the generation job raises, the reel ends
`failed` after exactly 3 retries (the single queued invocation's retry
counter reaches 3: the initial run plus three re-executions), with
`errorMessage` set to the stored failure message, `completedAt` still
null; the final attempt returns its error dictionary
(`TaskOutcome.value`) instead of re-raising, and afterwards nothing is
queued (a further run is a no-op). -/
theorem c5_exhausted_retries (m : String) :
    runEvents reelInit
        [REvent.runErr m, REvent.runErr m, REvent.runErr m] =
      (⟨RStatus.failed, [3], some ("Video generation failed: " ++ m),
        false⟩,
       [(RStatus.pending, RStatus.processing),
        (RStatus.processing, RStatus.failed),
        (RStatus.failed, RStatus.processing),
        (RStatus.processing, RStatus.failed),
        (RStatus.failed, RStatus.processing),
        (RStatus.processing, RStatus.failed)]) ∧
    applyEvent
        ⟨RStatus.failed, [3], some ("Video generation failed: " ++ m),
          false⟩
        (REvent.runErr m) =
      (⟨RStatus.failed, [], some ("Video generation failed: " ++ m),
        false⟩,
       [(RStatus.failed, RStatus.processing),
        (RStatus.processing, RStatus.failed)],
       TaskOutcome.value) ∧
    applyEvent
        ⟨RStatus.failed, [], some ("Video generation failed: " ++ m),
          false⟩
        (REvent.runErr m) =
      (⟨RStatus.failed, [], some ("Video generation failed: " ++ m),
        false⟩,
       [], TaskOutcome.noop) :=
  ⟨rfl, rfl, rfl⟩

/-! ## C10: the leap-year window `ValueError` -/

/-- A store with no photos, no memories and a cold cache. -/
def emptySys (today : DateT) : SysState := ⟨today, [], [], 0, []⟩

/-- C10: for target dates whose ±7-day shift lands on February 29 of a
leap year (March 7 or February 22, 2024), the expanded pass calls
`replace(year=2023)` on February 29 and raises `ValueError` (`none`), so
`discover_daily_memories` raises instead of returning a 0-or-1 result;
on an ordinary date, the same empty store returns the 0-memory result. -/
theorem c10_leap_window_raises :
    find_photos_with_date_expansion [] 1 ⟨2024, 3, 7⟩ = none ∧
    find_photos_with_date_expansion [] 1 ⟨2024, 2, 22⟩ = none ∧
    discover_daily_memories (emptySys ⟨2024, 3, 7⟩) 1 ⟨2024, 3, 7⟩ = none ∧
    discover_daily_memories (emptySys ⟨2024, 6, 15⟩) 1 ⟨2024, 6, 15⟩ =
      some ([], ⟨⟨2024, 6, 15⟩, [], [], 0, [((1, ⟨2024, 6, 15⟩), [])]⟩) := by
  decide

/-! ## List lemmas for the sort helper -/

/-- Insertion preserves length. -/
theorem length_insertBy {α : Type} (le : α → α → Bool) (x : α) (l : List α) :
    (insertBy le x l).length = l.length + 1 := by
  induction l with
  | nil => rfl
  | cons y ys ih =>
    simp only [insertBy]
    split_ifs <;> simp [ih]

/-- Sorting preserves length. -/
theorem length_sortBy {α : Type} (le : α → α → Bool) (l : List α) :
    (sortBy le l).length = l.length := by
  induction l with
  | nil => rfl
  | cons x xs ih => simp [sortBy, length_insertBy, ih]

/-- Membership in an insertion. -/
theorem mem_insertBy {α : Type} (le : α → α → Bool) (x : α) (l : List α)
    (a : α) : a ∈ insertBy le x l ↔ a = x ∨ a ∈ l := by
  induction l with
  | nil => simp [insertBy]
  | cons y ys ih =>
    simp only [insertBy]
    split_ifs <;> simp [ih] <;> tauto

/-- Membership in a sort. -/
theorem mem_sortBy {α : Type} (le : α → α → Bool) (l : List α) (a : α) :
    a ∈ sortBy le l ↔ a ∈ l := by
  induction l with
  | nil => simp [sortBy]
  | cons x xs ih => simp [sortBy, mem_insertBy, ih]

/-- A `filterMap` whose function never rejects is a `map`. -/
theorem filterMap_eq_map_of_forall {α β : Type} (f : α → Option β)
    (g : α → β) (l : List α) (h : ∀ a ∈ l, f a = some (g a)) :
    l.filterMap f = l.map g := by
  induction l with
  | nil => rfl
  | cons a l ih =>
    rw [List.filterMap_cons, h a (List.mem_cons_self a l), List.map_cons,
      ih (fun b hb => h b (List.mem_cons_of_mem a hb))]

/-! ## C9: the discovery threshold never filters -/

/-- C9: every photo scores at least 1.5 (the 1.0 base plus the fixed 0.5
placeholder), so the 1.0 significance threshold in
`_score_photos_significance` keeps every input photo: the function equals
the filterless sort-and-truncate, and its output length is the input
length capped at 20. -/
theorem c9_threshold_never_filters (today : DateT) (photos : List Photo) :
    (∀ p : Photo, (3/2 : ℚ) ≤ score_photo_significance today p) ∧
    score_photos_significance today photos =
      (sortBy (fun a b => decide (b.2 ≤ a.2))
        (photos.map (fun p => (p, score_photo_significance today p)))).take 20 ∧
    (score_photos_significance today photos).length = min photos.length 20 := by
  have hge : ∀ p : Photo, (3/2 : ℚ) ≤ score_photo_significance today p := by
    intro p
    rw [score_eq_specScore today p]
    exact specScore_ge today p
  have hfm : photos.filterMap (fun p =>
        let s := score_photo_significance today p
        if 1 ≤ s then some (p, s) else none) =
      photos.map (fun p => (p, score_photo_significance today p)) := by
    apply filterMap_eq_map_of_forall
    intro p hp
    have h := hge p
    show (if 1 ≤ score_photo_significance today p then
        some (p, score_photo_significance today p) else none) = _
    rw [if_pos (by linarith)]
  have heq : score_photos_significance today photos =
      (sortBy (fun a b => decide (b.2 ≤ a.2))
        (photos.map (fun p => (p, score_photo_significance today p)))).take 20 := by
    unfold score_photos_significance
    rw [hfm]
  refine ⟨hge, heq, ?_⟩
  rw [heq, List.length_take, length_sortBy, List.length_map, Nat.min_comm]

/-! ## C6: reel request validation -/

/-- C6: `create_reel_request` clamps any supplied duration into [10, 300],
substitutes `classic` for an unsupported theme, raises the
insufficient-photos error exactly when the selection has fewer than 10
photos — never persisting such a reel — and on success persists a reel in
status `pending` carrying the selection. -/
theorem c6_create_reel_request (today : DateT) (allPhotos : List Photo)
    (userId : Nat) (title : String) (startDate endDate : DateT)
    (theme : String) (durationOpt : Option Int) :
    (∀ e, create_reel_request today allPhotos userId title startDate endDate
        theme durationOpt = Except.error e →
      (select_representative_photos today allPhotos userId startDate endDate
        none).length < 10) ∧
    (∀ r, create_reel_request today allPhotos userId title startDate endDate
        theme durationOpt = Except.ok r →
      10 ≤ (select_representative_photos today allPhotos userId startDate
        endDate none).length ∧
      r.status = "pending" ∧
      r.duration = max 10 (min (durationOpt.getD 30) 300) ∧
      10 ≤ r.duration ∧ r.duration ≤ 300 ∧
      r.theme = (if supportedThemes.contains theme then theme
                 else "classic") ∧
      supportedThemes.contains r.theme = true ∧
      r.photoCount = (select_representative_photos today allPhotos userId
        startDate endDate none).length ∧
      r.photoIds = (select_representative_photos today allPhotos userId
        startDate endDate none).map (·.id)) := by
  simp only [create_reel_request]
  by_cases hsel : (select_representative_photos today allPhotos userId
      startDate endDate none).length < 10
  · rw [if_pos hsel]
    exact ⟨fun e he => hsel, fun r hr => by cases hr⟩
  · rw [if_neg hsel]
    constructor
    · intro e he
      cases he
    · intro r hr
      cases hr
      refine ⟨not_lt.mp hsel, rfl, rfl, le_max_left 10 _,
        max_le (by norm_num) (min_le_right _ 300), rfl, ?_, rfl, rfl⟩
      split_ifs with ht
      · exact ht
      · exact (by decide : supportedThemes.contains "classic" = true)

deriving instance DecidableEq for Except

/-- Ten photos of one user spread over June 2024. -/
def c6wPhotos : List Photo :=
  (List.range 10).map (fun i =>
    ⟨i + 1, 7, some ⟨2024, 6, i + 1⟩, ⟨2024, 6, i + 1⟩, none, none, 0, 0⟩)

/-- The reel `create_reel_request` persists for `c6wPhotos` with an
unsupported theme and an oversized duration. -/
def c6wReel : ReelRow :=
  ⟨7, "June", 300, "classic", "pending", ⟨2024, 6, 1⟩, ⟨2024, 6, 30⟩,
    [1, 2, 3, 4, 5, 6, 7, 8, 9, 10], 10⟩

/-- Closed instance of `c6_create_reel_request`: theme `funky` falls back
to `classic`, duration 999 clamps to 300, the 10-photo selection persists
as a `pending` reel. -/
theorem c6_create_reel_request_witness :
    create_reel_request ⟨2024, 7, 1⟩ c6wPhotos 7 "June" ⟨2024, 6, 1⟩
        ⟨2024, 6, 30⟩ "funky" (some 999) = Except.ok c6wReel ∧
    (10 ≤ (select_representative_photos ⟨2024, 7, 1⟩ c6wPhotos 7 ⟨2024, 6, 1⟩
        ⟨2024, 6, 30⟩ none).length ∧
      c6wReel.status = "pending" ∧
      c6wReel.duration = max 10 (min ((some (999 : Int)).getD 30) 300) ∧
      10 ≤ c6wReel.duration ∧ c6wReel.duration ≤ 300 ∧
      c6wReel.theme = (if supportedThemes.contains "funky" then "funky"
                       else "classic") ∧
      supportedThemes.contains c6wReel.theme = true ∧
      c6wReel.photoCount = (select_representative_photos ⟨2024, 7, 1⟩
        c6wPhotos 7 ⟨2024, 6, 1⟩ ⟨2024, 6, 30⟩ none).length ∧
      c6wReel.photoIds = (select_representative_photos ⟨2024, 7, 1⟩ c6wPhotos
        7 ⟨2024, 6, 1⟩ ⟨2024, 6, 30⟩ none).map (·.id)) :=
  ⟨by decide,
   (c6_create_reel_request ⟨2024, 7, 1⟩ c6wPhotos 7 "June" ⟨2024, 6, 1⟩
      ⟨2024, 6, 30⟩ "funky" (some 999)).2 c6wReel (by decide)⟩

/-! ## C1: discovery idempotency -/

/-- Rows for a given (user, target date): the uniqueness constraint of
`Memory.Meta` says there is at most one. -/
def memCount (st : SysState) (userId : Nat) (target : DateT) : Nat :=
  (st.memories.filter (fun m =>
    m.userId == userId && m.targetDate == target)).length

/-- Primary-key sanity of the store: every row's id is below the id
sequence, and ids are unique — what the database guarantees. -/
def stateWF (st : SysState) : Prop :=
  (∀ m ∈ st.memories, m.id < st.nextId) ∧ (st.memories.map (·.id)).Nodup

/-- A fresh `cache.set` is hit by the next `cache.get` of the same key. -/
theorem cacheGet_cacheSet (st : SysState) (k : Nat × DateT) (v : List Nat) :
    cacheGet (cacheSet st k v).cache k = some v := by
  simp [cacheGet, cacheSet, List.find?]

/-- With unique ids, filtering the store by one existing id yields exactly
that row. -/
theorem filter_id_singleton (l : List MemoryRow) (m : MemoryRow)
    (hnd : (l.map (·.id)).Nodup) (hm : m ∈ l) :
    (l.filter (fun x => [m.id].contains x.id)).map (·.id) = [m.id] := by
  induction l with
  | nil => cases hm
  | cons a l ih =>
    simp only [List.map_cons, List.nodup_cons] at hnd
    rcases List.mem_cons.mp hm with rfl | hm'
    · rw [List.filter_cons_of_pos (by simp)]
      have hrest : l.filter (fun x => [m.id].contains x.id) = [] := by
        rw [List.filter_eq_nil_iff]
        intro x hx
        simp only [List.contains_cons, List.contains_nil, Bool.or_false,
          beq_iff_eq]
        intro heq
        exact hnd.1 (heq ▸ List.mem_map_of_mem (·.id) hx)
      rw [hrest]
      rfl
    · have hne : a.id ≠ m.id := by
        intro h
        exact hnd.1 (h ▸ List.mem_map_of_mem (·.id) hm')
      rw [List.filter_cons_of_neg (by simp [hne])]
      exact ih hnd.2 hm'

/-- Appending a fresh row and filtering by its id yields exactly it. -/
theorem filter_id_append (l : List MemoryRow) (mem : MemoryRow)
    (h : ∀ x ∈ l, x.id ≠ mem.id) :
    ((l ++ [mem]).filter (fun x => [mem.id].contains x.id)).map (·.id)
      = [mem.id] := by
  rw [List.filter_append]
  have h1 : l.filter (fun x => [mem.id].contains x.id) = [] := by
    rw [List.filter_eq_nil_iff]
    intro x hx
    simp [h x hx]
  rw [h1]
  simp

/-- C1: a successful `discover_daily_memories` call is idempotent — the
immediate second call for the same (user, target date) hits the cache the
first call populated, returns the very same id list against the very same
state (hence the identical photo set: `MemoryPhoto` links live in the
returned rows and the state is unchanged), and writes nothing; and when
the store respected the (user, targetDate) uniqueness constraint before
the first call, it still does afterwards — two calls never produce two
rows. -/
theorem c1_discover_idempotent (st : SysState) (userId : Nat) (target : DateT)
    (r1 : List Nat) (st1 : SysState) (hwf : stateWF st)
    (h1 : discover_daily_memories st userId target = some (r1, st1)) :
    discover_daily_memories st1 userId target = some (r1, st1) ∧
    (memCount st userId target ≤ 1 → memCount st1 userId target ≤ 1) := by
  rcases hc : cacheGet st.cache (userId, target) with _ | ids
  · rcases hf : st.memories.find? (fun m =>
        m.userId == userId && m.targetDate == target) with _ | m
    · simp only [discover_daily_memories, hc, hf] at h1
      rcases hp : (if (find_photos_by_date st.photos userId target).isEmpty
          then find_photos_with_date_expansion st.photos userId target
          else some (find_photos_by_date st.photos userId target))
        with _ | photos2
      · rw [hp] at h1
        cases h1
      · rw [hp] at h1
        dsimp only [] at h1
        have hnone := List.find?_eq_none.mp hf
        by_cases he : photos2.isEmpty
        · rw [if_pos he] at h1
          simp only [Option.some.injEq, Prod.mk.injEq] at h1
          obtain ⟨h1a, h1b⟩ := h1
          subst h1a
          subst h1b
          constructor
          · simp [discover_daily_memories, cacheGet_cacheSet]
          · intro h
            exact h
        · rw [if_neg he] at h1
          by_cases hs : (score_photos_significance st.today photos2).isEmpty
          · rw [if_pos hs] at h1
            simp only [Option.some.injEq, Prod.mk.injEq] at h1
            obtain ⟨h1a, h1b⟩ := h1
            subst h1a
            subst h1b
            constructor
            · simp [discover_daily_memories, cacheGet_cacheSet]
            · intro h
              exact h
          · rw [if_neg hs] at h1
            simp only [Option.some.injEq, Prod.mk.injEq] at h1
            obtain ⟨h1a, h1b⟩ := h1
            subst h1a
            subst h1b
            have hfresh : ∀ x ∈ st.memories, x.id ≠
                (create_memory st userId target
                  (score_photos_significance st.today photos2)).1.id := by
              intro x hx
              have := hwf.1 x hx
              simp only [create_memory]
              omega
            constructor
            · simp only [discover_daily_memories, cacheGet_cacheSet]
              rw [if_neg (by simp)]
              have hmem : (cacheSet (create_memory st userId target
                  (score_photos_significance st.today photos2)).2
                  (userId, target)
                  [(create_memory st userId target
                    (score_photos_significance st.today photos2)).1.id]).memories
                  = st.memories ++ [(create_memory st userId target
                    (score_photos_significance st.today photos2)).1] := rfl
              rw [hmem, filter_id_append st.memories _ hfresh]
            · intro hcnt
              have hzero : memCount st userId target = 0 := by
                unfold memCount
                rw [List.length_eq_zero]
                rw [List.filter_eq_nil_iff]
                intro x hx
                exact fun hpred => hnone x hx hpred
              unfold memCount at *
              have : (cacheSet (create_memory st userId target
                  (score_photos_significance st.today photos2)).2
                  (userId, target)
                  [(create_memory st userId target
                    (score_photos_significance st.today photos2)).1.id]).memories
                  = st.memories ++ [(create_memory st userId target
                    (score_photos_significance st.today photos2)).1] := rfl
              rw [this, List.filter_append, List.length_append]
              rw [List.length_eq_zero.mpr (List.filter_eq_nil_iff.mpr
                (fun x hx hpred => hnone x hx hpred))]
              simp only [Nat.zero_add]
              exact le_trans (List.length_filter_le _ _) (by simp)
    · simp only [discover_daily_memories, hc, hf] at h1
      simp only [Option.some.injEq, Prod.mk.injEq] at h1
      obtain ⟨h1a, h1b⟩ := h1
      subst h1a
      subst h1b
      have hm : m ∈ st.memories := List.mem_of_find?_eq_some hf
      constructor
      · simp only [discover_daily_memories, cacheGet_cacheSet]
        rw [if_neg (by simp)]
        have hmem : (cacheSet st (userId, target) [m.id]).memories
            = st.memories := rfl
        rw [hmem, filter_id_singleton st.memories m hwf.2 hm]
      · intro h
        exact h
  · simp only [discover_daily_memories, hc] at h1
    by_cases he : ids.isEmpty
    · rw [if_pos he] at h1
      simp only [Option.some.injEq, Prod.mk.injEq] at h1
      obtain ⟨h1a, h1b⟩ := h1
      subst h1a
      subst h1b
      constructor
      · simp only [discover_daily_memories, hc]
        rw [if_pos he]
      · intro h
        exact h
    · rw [if_neg he] at h1
      simp only [Option.some.injEq, Prod.mk.injEq] at h1
      obtain ⟨h1a, h1b⟩ := h1
      subst h1a
      subst h1b
      constructor
      · simp only [discover_daily_memories, hc]
        rw [if_neg he]
      · intro h
        exact h

/-- The state after a first empty-result discovery on a cold cache. -/
def c1wState : SysState :=
  ⟨⟨2024, 6, 15⟩, [], [], 0, [((1, ⟨2024, 6, 15⟩), [])]⟩

/-- Closed instance of `c1_discover_idempotent`. -/
theorem c1_discover_idempotent_witness :
    discover_daily_memories (emptySys ⟨2024, 6, 15⟩) 1 ⟨2024, 6, 15⟩ =
      some ([], c1wState) ∧
    (discover_daily_memories c1wState 1 ⟨2024, 6, 15⟩ = some ([], c1wState) ∧
      (memCount (emptySys ⟨2024, 6, 15⟩) 1 ⟨2024, 6, 15⟩ ≤ 1 →
        memCount c1wState 1 ⟨2024, 6, 15⟩ ≤ 1)) :=
  ⟨by decide,
   c1_discover_idempotent (emptySys ⟨2024, 6, 15⟩) 1 ⟨2024, 6, 15⟩ []
     c1wState ⟨by simp [stateWF, emptySys], by simp [stateWF, emptySys]⟩
     (by decide)⟩

/-! ## C7: the expanded pass -/

/-- The photos year offset `k` contributes in the expanded pass: the 10
newest photos of the user within the replaced-endpoint window
`[(target−7d).replace(year=Y−k), (target+7d).replace(year=Y−k)]`. -/
def yearContrib (photos : List Photo) (userId : Nat) (target : DateT)
    (k : Nat) : List Photo :=
  ((windowOf target k).map (fun w =>
    (sortNewestFirst (photos.filter (fun p =>
      p.userId == userId && dateInRange p w.1 w.2))).take 10)).getD []

/-- What the expanded pass has gathered after processing year offsets
`1..n`. -/
def gatherPrefix (photos : List Photo) (userId : Nat) (target : DateT)
    (n : Nat) : List Photo :=
  ((List.range' 1 n).map (yearContrib photos userId target)).flatten

/-- A prefix of `range'` is a shorter `range'`. -/
theorem take_range' (s : Nat) : ∀ (m n : Nat), n ≤ m →
    (List.range' s m).take n = List.range' s n := by
  intro m
  induction m generalizing s with
  | zero =>
    intro n hn
    interval_cases n
    rfl
  | succ m ih =>
    intro n hn
    cases n with
    | zero => rfl
    | succ n' =>
      simp only [List.range'_succ, List.take_succ_cons]
      rw [ih (s + 1) n' (by omega)]

/-- Unfolding of the empty-offsets case of the loop. -/
theorem expansionGo_nil (photos : List Photo) (userId : Nat)
    (target : DateT) (acc : List Photo) :
    expansionGo photos userId target [] acc = some acc := rfl

/-- Unfolding of one loop iteration. -/
theorem expansionGo_cons (photos : List Photo) (userId : Nat)
    (target : DateT) (k : Nat) (ks : List Nat) (acc : List Photo) :
    expansionGo photos userId target (k :: ks) acc =
      match windowOf target k with
      | none => none
      | some (ys, ye) =>
        let yearPhotos :=
          (sortNewestFirst (photos.filter (fun p =>
            p.userId == userId && dateInRange p ys ye))).take 10
        let acc2 := acc ++ yearPhotos
        if 30 ≤ acc2.length then some acc2
        else expansionGo photos userId target ks acc2 := rfl

/-- Loop invariant of `_find_photos_with_date_expansion`: a successful run
over the remaining offsets `ks` from an accumulator below 30 processes a
prefix of the offsets, appending each year's contribution, and stops early
exactly when 30 photos are reached. -/
theorem expansionGo_spec (photos : List Photo) (userId : Nat)
    (target : DateT) (ks : List Nat) :
    ∀ (acc res : List Photo), acc.length < 30 →
    expansionGo photos userId target ks acc = some res →
    ∃ n, n ≤ ks.length ∧
      res = acc ++
        ((ks.take n).map (yearContrib photos userId target)).flatten ∧
      (∀ j < n, (acc ++ ((ks.take j).map
        (yearContrib photos userId target)).flatten).length < 30) ∧
      (n = ks.length ∨ 30 ≤ res.length) := by
  induction ks with
  | nil =>
    intro acc res hacc h
    rw [expansionGo_nil, Option.some.injEq] at h
    subst h
    exact ⟨0, by simp, by simp, by omega, Or.inl rfl⟩
  | cons k ks ih =>
    intro acc res hacc h
    rw [expansionGo_cons] at h
    rcases hw : windowOf target k with _ | ⟨ys, ye⟩
    · rw [hw] at h
      cases h
    · rw [hw] at h
      dsimp only [] at h
      have hcontrib : yearContrib photos userId target k =
          (sortNewestFirst (photos.filter (fun p =>
            p.userId == userId && dateInRange p ys ye))).take 10 := by
        simp only [yearContrib, hw, Option.map_some, Option.map_some',
          Option.getD_some]
      by_cases hbr : 30 ≤ (acc ++ (sortNewestFirst (photos.filter (fun p =>
          p.userId == userId && dateInRange p ys ye))).take 10).length
      · rw [if_pos hbr] at h
        simp only [Option.some.injEq] at h
        subst h
        refine ⟨1, by simp, ?_, ?_, Or.inr hbr⟩
        · simp [List.take_succ_cons, hcontrib]
        · intro j hj
          interval_cases j
          simpa using hacc
      · rw [if_neg hbr] at h
        have hlt : (acc ++ (sortNewestFirst (photos.filter (fun p =>
            p.userId == userId && dateInRange p ys ye))).take 10).length
            < 30 := by omega
        obtain ⟨n, hn, hres, hpref, hend⟩ := ih _ res hlt h
        refine ⟨n + 1, by simpa using hn, ?_, ?_, ?_⟩
        · rw [hres]
          simp [List.take_succ_cons, hcontrib, List.append_assoc]
        · intro j hj
          cases j with
          | zero => simpa using hacc
          | succ j' =>
            have hj' := hpref j' (by omega)
            simpa [List.take_succ_cons, hcontrib, List.append_assoc]
              using hj'
        · rcases hend with h9 | h30
          · exact Or.inl (by simp [h9])
          · exact Or.inr h30

/-- C7 (amended): when the expanded pass returns (no `ValueError`), it
returned exactly the per-year windows' contributions — for each processed
yearOffset the 10 newest user photos between `(target − 7d)` and
`(target + 7d)` with the year replaced by `target.year − yearOffset` —
appended for yearOffset = 1.., stopping early once at least 30 photos are
accumulated, and processing all 9 offsets otherwise. -/
theorem c7_expanded_pass_amended (photos : List Photo) (userId : Nat)
    (target : DateT) (res : List Photo)
    (h : find_photos_with_date_expansion photos userId target = some res) :
    ∃ n, 1 ≤ n ∧ n ≤ 9 ∧
      res = gatherPrefix photos userId target n ∧
      (∀ j < n, (gatherPrefix photos userId target j).length < 30) ∧
      (n = 9 ∨ 30 ≤ res.length) := by
  obtain ⟨n, hn, hres, hpref, hend⟩ :=
    expansionGo_spec photos userId target (List.range' 1 9) [] res
      (by simp) h
  simp only [List.length_range'] at hn hend
  have hres' : res = gatherPrefix photos userId target n := by
    rw [hres, gatherPrefix, take_range' 1 9 n hn]
    simp
  refine ⟨n, ?_, hn, hres', ?_, hend⟩
  · rcases Nat.eq_zero_or_pos n with rfl | h1
    · exfalso
      rcases hend with h9 | h30
      · omega
      · rw [hres'] at h30
        simp [gatherPrefix] at h30
    · exact h1
  · intro j hj
    have hj9 : j ≤ 9 := by omega
    have := hpref j hj
    rw [take_range' 1 9 j hj9] at this
    simpa [gatherPrefix] using this

/-- Closed instance of `c7_expanded_pass_amended`. -/
theorem c7_expanded_pass_amended_witness :
    find_photos_with_date_expansion [] 1 ⟨2024, 6, 16⟩ = some [] ∧
    (∃ n, 1 ≤ n ∧ n ≤ 9 ∧
      ([] : List Photo) = gatherPrefix [] 1 ⟨2024, 6, 16⟩ n ∧
      (∀ j < n, (gatherPrefix [] 1 ⟨2024, 6, 16⟩ j).length < 30) ∧
      (n = 9 ∨ 30 ≤ ([] : List Photo).length)) :=
  ⟨by decide, c7_expanded_pass_amended [] 1 ⟨2024, 6, 16⟩ [] (by decide)⟩

/-- A photo within ±7 days of the January 3 anniversary one year back. -/
def c7Photo : Photo :=
  ⟨42, 1, some ⟨2022, 12, 30⟩, ⟨2022, 12, 30⟩, none, none, 0, 0⟩

/-- Membership in the ±7-day window around the anniversary date in year
`target.year − k`, as the claim words the window. -/
def inTrueAnniversaryWindow (target : DateT) (k : Nat) (p : Photo) : Bool :=
  match target.replaceYear (target.year - k) with
  | some ann => dateInRange p (ann.addDays (-7)) (ann.addDays 7)
  | none => false

/-- C7 (counterexample): for target 2024-01-03 the photo of 2022-12-30
lies inside the ±7-day window around the 2023-01-03 anniversary
(yearOffset 1), the exact pass finds nothing, yet the expanded pass
returns the empty list: the code replaces the year on the shifted
endpoints, producing the empty window [2023-12-27, 2023-01-10]. -/
theorem c7_counterexample :
    inTrueAnniversaryWindow ⟨2024, 1, 3⟩ 1 c7Photo = true ∧
    find_photos_by_date [c7Photo] 1 ⟨2024, 1, 3⟩ = [] ∧
    find_photos_with_date_expansion [c7Photo] 1 ⟨2024, 1, 3⟩ = some [] := by
  decide

/-! ## C4: list and grouping lemmas -/

/-- Insertion produces a permutation of consing. -/
theorem insertBy_perm {α : Type} (le : α → α → Bool) (x : α) (l : List α) :
    List.Perm (insertBy le x l) (x :: l) := by
  induction l with
  | nil => exact List.Perm.refl _
  | cons y ys ih =>
    simp only [insertBy]
    split_ifs
    · exact List.Perm.refl _
    · exact (ih.cons y).trans (List.Perm.swap x y ys)

/-- Sorting permutes. -/
theorem sortBy_perm {α : Type} (le : α → α → Bool) (l : List α) :
    List.Perm (sortBy le l) l := by
  induction l with
  | nil => exact List.Perm.refl _
  | cons x xs ih => exact (insertBy_perm le x (sortBy le xs)).trans (ih.cons x)

/-- An in-bounds `getD` is a member. -/
theorem getD_mem {α : Type} (l : List α) (i : Nat) (d : α)
    (h : i < l.length) : l.getD i d ∈ l := by
  induction l generalizing i with
  | nil => simp at h
  | cons a l ih =>
    cases i with
    | zero => simp
    | succ i' =>
      rw [List.getD_cons_succ]
      exact List.mem_cons_of_mem a (ih i' (by simpa using h))

/-- `headD` of a non-empty list is a member. -/
theorem headD_mem {α : Type} (l : List α) (d : α) (h : l ≠ []) :
    l.headD d ∈ l := by
  cases l with
  | nil => exact absurd rfl h
  | cons a l => simp

/-- Total size of the date groups. -/
def groupsSize (gs : List (DateT × List (Photo × ℚ))) : Nat :=
  (gs.map (fun e => e.2.length)).sum

/-- Inserting one scored photo grows the total size by one. -/
theorem insertGroup_size (gs : List (DateT × List (Photo × ℚ))) (d : DateT)
    (x : Photo × ℚ) : groupsSize (insertGroup gs d x) = groupsSize gs + 1 := by
  induction gs with
  | nil => simp [insertGroup, groupsSize]
  | cons e gs ih =>
    obtain ⟨k, g⟩ := e
    simp only [insertGroup]
    split_ifs with hk
    · simp [groupsSize]
      omega
    · simp only [groupsSize, List.map_cons, List.sum_cons] at ih ⊢
      omega

/-- Membership across an insertion. -/
theorem insertGroup_mem (gs : List (DateT × List (Photo × ℚ))) (d : DateT)
    (x : Photo × ℚ) :
    ∀ e ∈ insertGroup gs d x, ∀ y ∈ e.2,
      (∃ e0 ∈ gs, y ∈ e0.2) ∨ y = x := by
  induction gs with
  | nil =>
    intro e he y hy
    simp only [insertGroup, List.mem_singleton] at he
    subst he
    simp only [List.mem_singleton] at hy
    exact Or.inr hy
  | cons e0 gs ih =>
    obtain ⟨k, g⟩ := e0
    intro e he y hy
    simp only [insertGroup] at he
    split_ifs at he with hk
    · rcases List.mem_cons.mp he with rfl | he'
      · simp only [List.mem_append, List.mem_singleton] at hy
        rcases hy with hy | hy
        · exact Or.inl ⟨(k, g), List.mem_cons_self _ _, hy⟩
        · exact Or.inr hy
      · exact Or.inl ⟨e, List.mem_cons_of_mem _ he', by exact (fun hh => hh) hy⟩
    · rcases List.mem_cons.mp he with rfl | he'
      · exact Or.inl ⟨(k, g), List.mem_cons_self _ _, hy⟩
      · rcases ih e he' y hy with ⟨e1, he1, hy1⟩ | h
        · exact Or.inl ⟨e1, List.mem_cons_of_mem _ he1, hy1⟩
        · exact Or.inr h

/-- Insertion keeps groups non-empty. -/
theorem insertGroup_ne_nil (gs : List (DateT × List (Photo × ℚ))) (d : DateT)
    (x : Photo × ℚ) (h : ∀ e ∈ gs, e.2 ≠ []) :
    ∀ e ∈ insertGroup gs d x, e.2 ≠ [] := by
  induction gs with
  | nil =>
    intro e he
    simp only [insertGroup, List.mem_singleton] at he
    subst he
    simp
  | cons e0 gs ih =>
    obtain ⟨k, g⟩ := e0
    intro e he
    simp only [insertGroup] at he
    split_ifs at he with hk
    · rcases List.mem_cons.mp he with rfl | he'
      · simp
      · exact h e (List.mem_cons_of_mem _ he')
    · rcases List.mem_cons.mp he with rfl | he'
      · exact h (k, g) (List.mem_cons_self _ _)
      · exact ih (fun e2 h2 => h e2 (List.mem_cons_of_mem _ h2)) e he'

/-- The keys after an insertion: unchanged when the key exists, extended
by the new key otherwise. -/
theorem insertGroup_keys (gs : List (DateT × List (Photo × ℚ))) (d : DateT)
    (x : Photo × ℚ) :
    (insertGroup gs d x).map (·.1) = gs.map (·.1) ∨
    (insertGroup gs d x).map (·.1) = gs.map (·.1) ++ [d] := by
  induction gs with
  | nil => simp [insertGroup]
  | cons e0 gs ih =>
    obtain ⟨k, g⟩ := e0
    simp only [insertGroup]
    split_ifs with hk
    · simp
    · rcases ih with h | h
      · exact Or.inl (by simp [h])
      · exact Or.inr (by simp [h])

/-- Size invariant of the grouping fold. -/
theorem groupByDate_fold_size (l : List (Photo × ℚ)) :
    ∀ gs, groupsSize (l.foldl (fun acc pq =>
      insertGroup acc (photoDateKey pq.1) pq) gs) = groupsSize gs + l.length := by
  induction l with
  | nil =>
    intro gs
    simp
  | cons x l ih =>
    intro gs
    simp only [List.foldl_cons, List.length_cons]
    rw [ih, insertGroup_size]
    omega

/-- Grouping preserves the number of scored photos. -/
theorem groupByDate_size (l : List (Photo × ℚ)) :
    groupsSize (groupByDate l) = l.length := by
  have h := groupByDate_fold_size l []
  simpa [groupByDate, groupsSize] using h

/-- Membership invariant of the grouping fold. -/
theorem groupByDate_fold_mem (l : List (Photo × ℚ)) :
    ∀ gs, ∀ e ∈ (l.foldl (fun acc pq =>
      insertGroup acc (photoDateKey pq.1) pq) gs),
      ∀ y ∈ e.2, (∃ e0 ∈ gs, y ∈ e0.2) ∨ y ∈ l := by
  induction l with
  | nil =>
    intro gs e he y hy
    exact Or.inl ⟨e, he, hy⟩
  | cons x l ih =>
    intro gs e he y hy
    simp only [List.foldl_cons] at he
    rcases ih _ e he y hy with ⟨e0, he0, hy0⟩ | h
    · rcases insertGroup_mem gs (photoDateKey x.1) x e0 he0 y hy0 with
        ⟨e1, he1, hy1⟩ | heq
      · exact Or.inl ⟨e1, he1, hy1⟩
      · exact Or.inr (heq ▸ List.mem_cons_self x l)
    · exact Or.inr (List.mem_cons_of_mem _ h)

/-- Every grouped photo comes from the input. -/
theorem groupByDate_mem (l : List (Photo × ℚ)) :
    ∀ e ∈ groupByDate l, ∀ y ∈ e.2, y ∈ l := by
  intro e he y hy
  rcases groupByDate_fold_mem l [] e he y hy with ⟨e0, he0, -⟩ | h
  · cases he0
  · exact h

/-- Non-emptiness invariant of the grouping fold. -/
theorem groupByDate_fold_ne_nil (l : List (Photo × ℚ)) :
    ∀ gs, (∀ e ∈ gs, e.2 ≠ []) →
      ∀ e ∈ (l.foldl (fun acc pq =>
        insertGroup acc (photoDateKey pq.1) pq) gs), e.2 ≠ [] := by
  induction l with
  | nil =>
    intro gs h e he
    exact h e he
  | cons x l ih =>
    intro gs h e he
    simp only [List.foldl_cons] at he
    exact ih _ (insertGroup_ne_nil gs (photoDateKey x.1) x h) e he

/-- Every date group is non-empty. -/
theorem groupByDate_ne_nil (l : List (Photo × ℚ)) :
    ∀ e ∈ groupByDate l, e.2 ≠ [] :=
  groupByDate_fold_ne_nil l [] (fun e he => absurd he (List.not_mem_nil e))

/-- Insertion preserves distinctness of the keys. -/
theorem insertGroup_keys_nodup (gs : List (DateT × List (Photo × ℚ)))
    (d : DateT) (x : Photo × ℚ) (h : (gs.map (·.1)).Nodup) :
    ((insertGroup gs d x).map (·.1)).Nodup := by
  induction gs with
  | nil => simp [insertGroup]
  | cons e0 gs ih =>
    obtain ⟨k, g⟩ := e0
    simp only [List.map_cons, List.nodup_cons] at h
    simp only [insertGroup]
    split_ifs with hk
    · simp only [List.map_cons, List.nodup_cons]
      exact ⟨h.1, h.2⟩
    · simp only [List.map_cons, List.nodup_cons]
      refine ⟨?_, ih h.2⟩
      rcases insertGroup_keys gs d x with hkeys | hkeys
      · rw [hkeys]
        exact h.1
      · rw [hkeys]
        simp only [List.mem_append, List.mem_singleton]
        rintro (hmem | rfl)
        · exact h.1 hmem
        · simp at hk

/-- Distinctness invariant of the grouping fold. -/
theorem groupByDate_fold_keys_nodup (l : List (Photo × ℚ)) :
    ∀ gs, (gs.map (·.1)).Nodup →
      ((l.foldl (fun acc pq =>
        insertGroup acc (photoDateKey pq.1) pq) gs).map (·.1)).Nodup := by
  induction l with
  | nil =>
    intro gs h
    exact h
  | cons x l ih =>
    intro gs h
    simp only [List.foldl_cons]
    exact ih _ (insertGroup_keys_nodup gs (photoDateKey x.1) x h)

/-- The date keys of the grouping are distinct. -/
theorem groupByDate_keys_nodup (l : List (Photo × ℚ)) :
    ((groupByDate l).map (·.1)).Nodup :=
  groupByDate_fold_keys_nodup l [] (by simp)

/-- A successful lookup returns a stored group. -/
theorem lookupGroup_mem (gs : List (DateT × List (Photo × ℚ))) (d : DateT)
    (g : List (Photo × ℚ)) (h : lookupGroup gs d = some g) :
    ∃ e ∈ gs, e.1 = d ∧ e.2 = g := by
  unfold lookupGroup at h
  rcases hf : gs.find? (fun e => e.1 == d) with _ | e
  · rw [hf] at h
    cases h
  · rw [hf] at h
    simp only [Option.map_some', Option.some.injEq] at h
    have h1 := List.find?_some hf
    have h2 := List.mem_of_find?_eq_some hf
    exact ⟨e, h2, by simpa using h1, h⟩

/-- A key of the grouping is always found. -/
theorem lookupGroup_found (gs : List (DateT × List (Photo × ℚ))) (d : DateT)
    (h : d ∈ gs.map (·.1)) : ∃ g, lookupGroup gs d = some g := by
  unfold lookupGroup
  rcases hf : gs.find? (fun e => e.1 == d) with _ | e
  · exfalso
    have hall := List.find?_eq_none.mp hf
    rcases List.mem_map.mp h with ⟨e, he, rfl⟩
    exact hall e he (by simp)
  · exact ⟨e.2, by rw [hf]; rfl⟩

/-- With distinct keys, looking up a stored entry's key yields its own
group. -/
theorem lookupGroup_self (gs : List (DateT × List (Photo × ℚ)))
    (hnd : (gs.map (·.1)).Nodup) :
    ∀ e ∈ gs, lookupGroup gs e.1 = some e.2 := by
  induction gs with
  | nil =>
    intro e he
    cases he
  | cons a gs ih =>
    simp only [List.map_cons, List.nodup_cons] at hnd
    intro e he
    rcases List.mem_cons.mp he with rfl | he'
    · unfold lookupGroup
      rw [List.find?_cons_of_pos _ (by simp)]
      rfl
    · have hne : ¬ (a.1 == e.1) = true := by
        simp only [beq_iff_eq]
        intro hh
        exact hnd.1 (hh ▸ List.mem_map_of_mem (·.1) he')
      unfold lookupGroup
      have hstep : (a :: gs).find? (fun x => x.1 == e.1)
          = gs.find? (fun x => x.1 == e.1) :=
        List.find?_cons_of_neg gs hne
      rw [hstep]
      exact ih hnd.2 e he'

/-- The top of a non-empty group is one of its photos. -/
theorem bestOfGroup_mem (g : List (Photo × ℚ)) (hg : g ≠ []) :
    ∃ pq ∈ g, bestOfGroup (some g) = pq.1 := by
  have hlen : sortBy (fun a b => decide (b.2 ≤ a.2)) g ≠ [] := by
    intro h
    apply hg
    have hl := length_sortBy (fun a b => decide (b.2 ≤ a.2)) g
    rw [h] at hl
    exact List.length_eq_zero.mp hl.symm
  have hmem := headD_mem (sortBy (fun a b => decide (b.2 ≤ a.2)) g)
    ((default : Photo), (0 : ℚ)) hlen
  rw [mem_sortBy] at hmem
  exact ⟨_, hmem, rfl⟩

/-- Lists of positive naturals are at least as long as their sum is. -/
theorem length_le_sum (ns : List Nat) (h : ∀ n ∈ ns, 1 ≤ n) :
    ns.length ≤ ns.sum := by
  induction ns with
  | nil => simp
  | cons n ns ih =>
    simp only [List.length_cons, List.sum_cons]
    have h1 := h n (List.mem_cons_self _ _)
    have h2 := ih (fun m hm => h m (List.mem_cons_of_mem _ hm))
    omega

/-- Subtracting one from each positive entry subtracts the length from
the sum. -/
theorem sum_pred (ns : List Nat) (h : ∀ n ∈ ns, 1 ≤ n) :
    (ns.map (fun n => n - 1)).sum = ns.sum - ns.length := by
  induction ns with
  | nil => rfl
  | cons n ns ih =>
    simp only [List.map_cons, List.sum_cons, List.length_cons]
    rw [ih (fun m hm => h m (List.mem_cons_of_mem _ hm))]
    have h1 := h n (List.mem_cons_self _ _)
    have h2 := length_le_sum ns (fun m hm => h m (List.mem_cons_of_mem _ hm))
    omega

/-- Length of the leftover pool of `_apply_temporal_distribution`: the
scored photos minus one representative per date. -/
theorem allRemaining_length (scored : List (Photo × ℚ)) :
    (((sortBy (fun a b => decide (a.toOrd ≤ b.toOrd))
        ((groupByDate scored).map (·.1))).map
      (fun d => ((lookupGroup (groupByDate scored) d).getD []).drop 1)).flatten).length
      = scored.length -
        (sortBy (fun a b => decide (a.toOrd ≤ b.toOrd))
          ((groupByDate scored).map (·.1))).length := by
  have hperm : List.Perm
      (sortBy (fun a b => decide (a.toOrd ≤ b.toOrd))
        ((groupByDate scored).map (·.1)))
      ((groupByDate scored).map (·.1)) := sortBy_perm _ _
  have hlen1 : (sortBy (fun a b => decide (a.toOrd ≤ b.toOrd))
      ((groupByDate scored).map (·.1))).length = (groupByDate scored).length := by
    rw [length_sortBy, List.length_map]
  rw [List.length_flatten, List.map_map]
  have hmap : (List.length ∘ fun d =>
      ((lookupGroup (groupByDate scored) d).getD []).drop 1) =
      fun d => (((lookupGroup (groupByDate scored) d).getD []).drop 1).length :=
    rfl
  rw [hmap]
  rw [(hperm.map (fun d =>
    (((lookupGroup (groupByDate scored) d).getD []).drop 1).length)).sum_eq]
  rw [List.map_map]
  have hcongr : (groupByDate scored).map ((fun d =>
      (((lookupGroup (groupByDate scored) d).getD []).drop 1).length) ∘ (·.1))
      = (groupByDate scored).map (fun e => e.2.length - 1) := by
    apply List.map_congr_left
    intro e he
    have hl := lookupGroup_self (groupByDate scored)
      (groupByDate_keys_nodup scored) e he
    simp only [Function.comp_apply, hl, Option.getD_some, List.length_drop]
  rw [hcongr]
  have hsplit : (groupByDate scored).map (fun e => e.2.length - 1)
      = ((groupByDate scored).map (fun e => e.2.length)).map
        (fun n => n - 1) := by
    rw [List.map_map]
    rfl
  rw [hsplit, sum_pred]
  · have hsz := groupByDate_size scored
    unfold groupsSize at hsz
    rw [hsz, List.length_map, hlen1]
  · intro n hn
    rcases List.mem_map.mp hn with ⟨e, he, rfl⟩
    exact List.length_pos.mpr (groupByDate_ne_nil scored e he)

/-- `_apply_temporal_distribution` returns exactly `count` photos whenever
the input exceeds `count`. -/
theorem apply_temporal_distribution_length (scored : List (Photo × ℚ))
    (count : Nat) (hlen : count < scored.length) :
    (apply_temporal_distribution scored count).length = count := by
  unfold apply_temporal_distribution
  rw [if_neg (by omega)]
  dsimp only []
  split_ifs with h1 h2
  · have hd := length_sortBy (fun (a : DateT) b => decide (a.toOrd ≤ b.toOrd))
      ((groupByDate scored).map (·.1))
    rw [List.length_append, List.length_map, List.length_map,
      List.length_take, length_sortBy, length_sortBy, allRemaining_length]
    rw [List.length_map] at h2
    omega
  · rw [List.length_map]
    rw [List.length_map] at h2
    omega
  · rw [List.length_map, List.length_map, List.length_range]

/-- The stride-sampled index stays in bounds. -/
theorem stride_index_lt (L count i : Nat) (hi : i < count) (hcl : count < L) :
    i * (L / count) < L := by
  have hc : 0 < count := by omega
  have hstep : 1 ≤ L / count := (Nat.one_le_div_iff hc).mpr (le_of_lt hcl)
  have hi' : i + 1 ≤ count := hi
  have h1' : (i + 1) * (L / count) ≤ count * (L / count) :=
    Nat.mul_le_mul_right (L / count) hi'
  have h2' : count * (L / count) ≤ L := by
    rw [Nat.mul_comm]
    exact Nat.div_mul_le_self L count
  have h3' : i * (L / count) + (L / count) ≤ L := by
    rw [← Nat.succ_mul]
    exact le_trans h1' h2'
  exact lt_of_lt_of_le (Nat.lt_add_of_pos_right hstep) h3'

/-- The representative picked for a stored date key is a scored photo. -/
theorem best_mem_scored (scored : List (Photo × ℚ)) (d : DateT)
    (hd : d ∈ (groupByDate scored).map (·.1)) :
    ∃ q, (bestOfGroup (lookupGroup (groupByDate scored) d), q) ∈ scored := by
  rcases lookupGroup_found _ _ hd with ⟨g, hg⟩
  rcases lookupGroup_mem _ _ _ hg with ⟨e, he, -, hv⟩
  have hne : g ≠ [] := hv ▸ groupByDate_ne_nil scored e he
  rcases bestOfGroup_mem g hne with ⟨pq, hpq, hbest⟩
  rw [hg, hbest]
  exact ⟨pq.2, groupByDate_mem scored e he pq (hv ▸ hpq)⟩

/-- Every photo `_apply_temporal_distribution` returns was one of the
scored input photos. -/
theorem apply_temporal_distribution_subset (scored : List (Photo × ℚ))
    (count : Nat) :
    ∀ p ∈ apply_temporal_distribution scored count,
      ∃ q, (p, q) ∈ scored := by
  unfold apply_temporal_distribution
  dsimp only []
  split_ifs with h0 h1 h2
  · intro p hp
    rcases List.mem_map.mp hp with ⟨⟨p', q⟩, hmem, rfl⟩
    exact ⟨q, hmem⟩
  · intro p hp
    rcases List.mem_append.mp hp with hp | hp
    · rcases List.mem_map.mp hp with ⟨d, hd, rfl⟩
      exact best_mem_scored scored d ((mem_sortBy _ _ d).mp hd)
    · rcases List.mem_map.mp hp with ⟨⟨p', q⟩, hmem, rfl⟩
      have hmem2 := List.take_subset _ _ hmem
      have hmem3 := (mem_sortBy _ _ _).mp hmem2
      rcases List.mem_flatten.mp hmem3 with ⟨l, hl, hml⟩
      rcases List.mem_map.mp hl with ⟨d, hd, rfl⟩
      rcases hlk : lookupGroup (groupByDate scored) d with _ | g
      · rw [hlk] at hml
        simp at hml
      · rw [hlk] at hml
        simp only [Option.getD_some] at hml
        have hing : (p', q) ∈ g := List.drop_subset 1 g hml
        rcases lookupGroup_mem _ _ _ hlk with ⟨e, he, -, rfl⟩
        exact ⟨q, groupByDate_mem scored e he _ hing⟩
  · intro p hp
    rcases List.mem_map.mp hp with ⟨d, hd, rfl⟩
    exact best_mem_scored scored d ((mem_sortBy _ _ d).mp hd)
  · intro p hp
    rcases List.mem_map.mp hp with ⟨d, hd, rfl⟩
    rcases List.mem_map.mp hd with ⟨i, hi, rfl⟩
    rw [List.mem_range] at hi
    rw [not_le] at h1
    have hbound := stride_index_lt
      ((sortBy (fun a b => decide (a.toOrd ≤ b.toOrd))
        ((groupByDate scored).map (·.1))).length) count i hi h1
    have hdd := getD_mem _ _ (⟨0, 1, 1⟩ : DateT) hbound
    exact best_mem_scored scored _ ((mem_sortBy _ _ _).mp hdd)

/-- `_advanced_photo_selection` returns exactly `count` photos whenever
the input exceeds `count`. -/
theorem advanced_photo_selection_length (today : DateT) (photos : List Photo)
    (count : Nat) (hlen : count < photos.length) :
    (advanced_photo_selection today photos count).length = count := by
  unfold advanced_photo_selection
  dsimp only []
  rw [length_sortBy]
  apply apply_temporal_distribution_length
  rw [length_sortBy, List.length_map]
  exact hlen

/-- `_advanced_photo_selection` only also returns input photos. -/
theorem advanced_photo_selection_subset (today : DateT) (photos : List Photo)
    (count : Nat) :
    ∀ p ∈ advanced_photo_selection today photos count, p ∈ photos := by
  unfold advanced_photo_selection
  dsimp only []
  intro p hp
  have hp2 := (mem_sortBy _ _ _).mp hp
  rcases apply_temporal_distribution_subset _ _ p hp2 with ⟨q, hq⟩
  have hq2 := (mem_sortBy _ _ _).mp hq
  rcases List.mem_map.mp hq2 with ⟨p', hp', heq⟩
  have hpp : p' = p := congrArg Prod.fst heq
  exact hpp ▸ hp'

/-- C4 (amended): whenever the user has at least 10 photos in the range,
`select_representative_photos` returns between 10 and 20 photos and each
returned photo's capture date lies in `[startDate, endDate]`.  (Below 10
eligible photos the code returns them all, fewer than 10.) -/
theorem c4_selector_bounds_amended (today : DateT) (allPhotos : List Photo)
    (userId : Nat) (startDate endDate : DateT) (countOpt : Option Nat)
    (h10 : 10 ≤ (allPhotos.filter (fun p =>
      p.userId == userId && dateInRange p startDate endDate)).length) :
    (10 ≤ (select_representative_photos today allPhotos userId startDate
        endDate countOpt).length ∧
      (select_representative_photos today allPhotos userId startDate endDate
        countOpt).length ≤ 20) ∧
    ∀ p ∈ select_representative_photos today allPhotos userId startDate
        endDate countOpt,
      ∃ t, p.takenAt = some t ∧ startDate.le t = true ∧
        t.le endDate = true := by
  have hc1 : 10 ≤ max 10 (min (countOpt.getD 20) 20) := le_max_left _ _
  have hc2 : max 10 (min (countOpt.getD 20) 20) ≤ 20 :=
    max_le (by norm_num) (min_le_right _ _)
  have hplen : (sortBy (fun a b => decide (takenOrd a ≤ takenOrd b))
      (allPhotos.filter (fun p =>
        p.userId == userId && dateInRange p startDate endDate))).length
      = (allPhotos.filter (fun p =>
        p.userId == userId && dateInRange p startDate endDate)).length :=
    length_sortBy _ _
  have hmemrange : ∀ p ∈ sortBy (fun a b => decide (takenOrd a ≤ takenOrd b))
      (allPhotos.filter (fun p =>
        p.userId == userId && dateInRange p startDate endDate)),
      ∃ t, p.takenAt = some t ∧ startDate.le t = true ∧
        t.le endDate = true := by
    intro p hp
    have hp2 := (mem_sortBy _ _ _).mp hp
    have hp3 := (List.mem_filter.mp hp2).2
    rw [Bool.and_eq_true] at hp3
    have hp4 := hp3.2
    unfold dateInRange at hp4
    rcases ht : p.takenAt with _ | t
    · rw [ht] at hp4
      cases hp4
    · rw [ht] at hp4
      rw [Bool.and_eq_true] at hp4
      exact ⟨t, rfl, hp4.1, hp4.2⟩
  unfold select_representative_photos
  dsimp only []
  split_ifs with hsm
  · refine ⟨⟨?_, ?_⟩, hmemrange⟩
    · omega
    · omega
  · rw [not_le] at hsm
    rw [advanced_photo_selection_length today _ _ hsm]
    refine ⟨⟨hc1, hc2⟩, ?_⟩
    intro p hp
    exact hmemrange p (advanced_photo_selection_subset today _ _ p hp)

/-- One photo inside the requested range. -/
def c4Photo : Photo := ⟨5, 1, some ⟨2024, 6, 10⟩, ⟨2024, 6, 10⟩, none, none, 0, 0⟩

/-- C4 (counterexample): an input with a single eligible photo satisfies
the claim's precondition (it has at least `min(10, len(photos)) = 1`
eligible items), yet the selector returns 1 photo, violating
`10 ≤ len(result)`. -/
theorem c4_counterexample :
    min 10 ([c4Photo].filter (fun p =>
        p.userId == 1 && dateInRange p ⟨2024, 6, 1⟩ ⟨2024, 6, 30⟩)).length ≤
      ([c4Photo].filter (fun p =>
        p.userId == 1 && dateInRange p ⟨2024, 6, 1⟩ ⟨2024, 6, 30⟩)).length ∧
    select_representative_photos ⟨2024, 7, 1⟩ [c4Photo] 1 ⟨2024, 6, 1⟩
      ⟨2024, 6, 30⟩ none = [c4Photo] ∧
    ¬ 10 ≤ (select_representative_photos ⟨2024, 7, 1⟩ [c4Photo] 1
      ⟨2024, 6, 1⟩ ⟨2024, 6, 30⟩ none).length := by
  decide

/-- Ten eligible photos of one user in June 2024. -/
def c4wPhotos : List Photo :=
  (List.range 10).map (fun i =>
    ⟨i + 1, 3, some ⟨2024, 6, i + 1⟩, ⟨2024, 6, i + 1⟩, none, none, 0, 0⟩)

/-- Closed instance of `c4_selector_bounds_amended`. -/
theorem c4_selector_bounds_amended_witness :
    10 ≤ (c4wPhotos.filter (fun p =>
      p.userId == 3 && dateInRange p ⟨2024, 6, 1⟩ ⟨2024, 6, 30⟩)).length ∧
    ((10 ≤ (select_representative_photos ⟨2024, 7, 1⟩ c4wPhotos 3
        ⟨2024, 6, 1⟩ ⟨2024, 6, 30⟩ none).length ∧
      (select_representative_photos ⟨2024, 7, 1⟩ c4wPhotos 3 ⟨2024, 6, 1⟩
        ⟨2024, 6, 30⟩ none).length ≤ 20) ∧
      ∀ p ∈ select_representative_photos ⟨2024, 7, 1⟩ c4wPhotos 3
        ⟨2024, 6, 1⟩ ⟨2024, 6, 30⟩ none,
        ∃ t, p.takenAt = some t ∧ (⟨2024, 6, 1⟩ : DateT).le t = true ∧
          t.le ⟨2024, 6, 30⟩ = true) :=
  ⟨by decide,
   c4_selector_bounds_amended ⟨2024, 7, 1⟩ c4wPhotos 3 ⟨2024, 6, 1⟩
     ⟨2024, 6, 30⟩ none (by decide)⟩
